import Mathlib

/-
Verification of the feature-alignment logic of src/code/read/mrc_reader.py
(class Reader, methods prepare_train_features and prepare_validation_features).

The tokenizer outputs (token ids, per-token character offsets, per-token
sequence tags, overflow-to-sample mapping) are modelled as input data; the
per-window labelling and offset-rewriting logic is embedded faithfully,
including Python list-indexing semantics (negative indices wrap around,
out-of-range access raises IndexError, modelled as Except.error).
-/

namespace MrcReader

def indexErrorMsg : String := "IndexError"

def valueErrorMsg : String := "ValueError"

/-- Python-style list indexing: a non-negative index reads directly, a
negative index in [-len, -1] wraps around from the end, and anything else
is an IndexError (modelled as none). -/
def pyGet {α : Type} (xs : List α) (i : Int) : Option α :=
  if 0 ≤ i then xs.get? i.toNat
  else if -(xs.length : Int) ≤ i then xs.get? (i + xs.length).toNat
  else none

theorem pyGet_some_bounds {α : Type} {xs : List α} {i : Int} {a : α}
    (h : pyGet xs i = some a) : -(xs.length : Int) ≤ i ∧ i < (xs.length : Int) := by
  unfold pyGet at h
  split at h
  · have h2 := (List.get?_eq_some.mp h).1
    omega
  · split at h
    · have h2 := (List.get?_eq_some.mp h).1
      omega
    · exact absurd h (by simp)

/-- For a non-negative index, Python indexing is ordinary list lookup. -/
theorem pyGet_nonneg {α : Type} (xs : List α) (i : Int) (h : 0 ≤ i) :
    pyGet xs i = xs.get? i.toNat := by
  unfold pyGet
  simp [h]

/-- One tokenized window, as returned by the tokenizer with
return_overflowing_tokens and return_offsets_mapping: token ids, the
per-token (char_start, char_end) offset pairs, the per-token sequence
tags (none for special tokens), and the overflow_to_sample_mapping entry. -/
structure Window where
  input_ids : List Nat
  offsets : List (Nat × Nat)
  sequence_ids : List (Option Nat)
  sample_index : Nat

/-- The answers field of one example: parallel lists answer_start and text. -/
structure Answers where
  answer_start : List Nat
  text : List String

/-- The context tag: `1 if pad_on_right else 0`. -/
def contextId (padOnRight : Bool) : Nat := if padOnRight then 1 else 0

/-- Forward scan of prepare_train_features (token_start_index):
`while sequence_ids[token_start_index] != ctx: token_start_index += 1`.
There is no upper bound check; walking past the end raises IndexError. -/
def seqScanFwd (sids : List (Option Nat)) (ctx : Nat) (i : Nat) : Except String Nat :=
  match h : sids.get? i with
  | none => .error indexErrorMsg
  | some s => if s = some ctx then .ok i else seqScanFwd sids ctx (i + 1)
termination_by sids.length - i
decreasing_by
  have := (List.get?_eq_some.mp h).1
  omega

/-- Backward scan of prepare_train_features (token_end_index), starting at
`len(input_ids) - 1`: `while sequence_ids[token_end_index] != ctx:
token_end_index -= 1`. There is no lower bound check; a negative index
wraps around Python-style and below -len raises IndexError. -/
def seqScanBwd (sids : List (Option Nat)) (ctx : Nat) (j : Int) : Except String Int :=
  match h : pyGet sids j with
  | none => .error indexErrorMsg
  | some s => if s = some ctx then .ok j else seqScanBwd sids ctx (j - 1)
termination_by (j + sids.length + 1).toNat
decreasing_by
  have := pyGet_some_bounds h
  omega

/-- Start-narrowing loop of prepare_train_features:
`while token_start_index < len(offsets) and
offsets[token_start_index][0] <= start_char: token_start_index += 1`. -/
def startLoop (offsets : List (Nat × Nat)) (sc : Nat) (i : Nat) : Nat :=
  if h : i < offsets.length then
    if (offsets.get ⟨i, h⟩).1 ≤ sc then startLoop offsets sc (i + 1) else i
  else i
termination_by offsets.length - i

/-- End-narrowing loop of prepare_train_features:
`while offsets[token_end_index][1] >= end_char: token_end_index -= 1`.
Unlike the start loop it has no bound check: a negative index wraps around
Python-style and below -len raises IndexError. -/
def endLoop (offsets : List (Nat × Nat)) (ec : Nat) (j : Int) : Except String Int :=
  match h : pyGet offsets j with
  | none => .error indexErrorMsg
  | some o => if ec ≤ o.2 then endLoop offsets ec (j - 1) else .ok j
termination_by (j + offsets.length + 1).toNat
decreasing_by
  have := pyGet_some_bounds h
  omega

/-- The per-window labelling body of prepare_train_features (the body of
the loop over offset_mapping, lines 160-210): computes cls_index as the
first occurrence of the cls token id, branches on an empty answer list,
locates the first/last context token, performs the short-circuit
containment check, and otherwise narrows both bounds. Returns the pair
(start_position, end_position) appended for this window. -/
def labelWindow (clsId : Nat) (padOnRight : Bool) (answers : Answers) (w : Window) :
    Except String (Int × Int) :=
  match w.input_ids.findIdx? (fun t => t == clsId) with
  | none => .error valueErrorMsg
  | some cls_index =>
    if answers.answer_start.length = 0 then .ok (cls_index, cls_index)
    else
      match answers.answer_start.get? 0 with
      | none => .error indexErrorMsg
      | some start_char =>
        match answers.text.get? 0 with
        | none => .error indexErrorMsg
        | some t0 =>
          let end_char := start_char + t0.length
          let ctx := contextId padOnRight
          match seqScanFwd w.sequence_ids ctx 0 with
          | .error e => .error e
          | .ok token_start_index =>
            match seqScanBwd w.sequence_ids ctx ((w.input_ids.length : Int) - 1) with
            | .error e => .error e
            | .ok token_end_index =>
              match w.offsets.get? token_start_index with
              | none => .error indexErrorMsg
              | some os =>
                if os.1 ≤ start_char then
                  match pyGet w.offsets token_end_index with
                  | none => .error indexErrorMsg
                  | some oe =>
                    if end_char ≤ oe.2 then
                      let j := startLoop w.offsets start_char token_start_index
                      match endLoop w.offsets end_char token_end_index with
                      | .error e => .error e
                      | .ok k => .ok ((j : Int) - 1, k + 1)
                    else .ok (cls_index, cls_index)
                else .ok (cls_index, cls_index)

/-- prepare_train_features over a batch: for each window, look up its
example's answers through overflow_to_sample_mapping and append exactly
one start position and one end position; any exception aborts the call. -/
def prepareTrainFeatures (clsId : Nat) (padOnRight : Bool) (answersList : List Answers) :
    List Window → Except String (List Int × List Int)
  | [] => .ok ([], [])
  | w :: ws =>
    match answersList.get? w.sample_index with
    | none => .error indexErrorMsg
    | some a =>
      match labelWindow clsId padOnRight a w with
      | .error e => .error e
      | .ok (sp, ep) =>
        match prepareTrainFeatures clsId padOnRight answersList ws with
        | .error e => .error e
        | .ok (sps, eps) => .ok (sp :: sps, ep :: eps)

/-- The offset-rewriting comprehension of prepare_validation_features:
`[(o if sequence_ids[k] == context_index else None) for k, o in
enumerate(offset_mapping[i])]`. -/
def rewriteOffsets (sids : List (Option Nat)) (ctx : Nat) :
    List (Nat × Nat) → Nat → Except String (List (Option (Nat × Nat)))
  | [], _ => .ok []
  | o :: rest, k =>
    match sids.get? k with
    | none => .error indexErrorMsg
    | some s =>
      match rewriteOffsets sids ctx rest (k + 1) with
      | .error e => .error e
      | .ok tl => .ok ((if s = some ctx then some o else none) :: tl)

/-- The per-window body of prepare_validation_features (lines 255-269):
record the source example's id through overflow_to_sample_mapping and
rewrite the window's offset_mapping. -/
def validationWindow (padOnRight : Bool) (ids : List String) (w : Window) :
    Except String (String × List (Option (Nat × Nat))) :=
  match ids.get? w.sample_index with
  | none => .error indexErrorMsg
  | some eid =>
    match rewriteOffsets w.sequence_ids (contextId padOnRight) w.offsets 0 with
    | .error e => .error e
    | .ok offs => .ok (eid, offs)

/-- prepare_validation_features over a batch: per window, one example_id
entry and one rewritten offset_mapping row. -/
def prepareValidationFeatures (padOnRight : Bool) (ids : List String) :
    List Window → Except String (List String × List (List (Option (Nat × Nat))))
  | [] => .ok ([], [])
  | w :: ws =>
    match validationWindow padOnRight ids w with
    | .error e => .error e
    | .ok (eid, offs) =>
      match prepareValidationFeatures padOnRight ids ws with
      | .error e => .error e
      | .ok (eids, offss) => .ok (eid :: eids, offs :: offss)

/-! ### Step lemmas for the loop embeddings -/

theorem seqScanFwd_none (sids : List (Option Nat)) (ctx i : Nat)
    (h : sids.get? i = none) : seqScanFwd sids ctx i = .error indexErrorMsg := by
  unfold seqScanFwd
  rw [h]

theorem seqScanFwd_hit (sids : List (Option Nat)) (ctx i : Nat)
    (h : sids.get? i = some (some ctx)) : seqScanFwd sids ctx i = .ok i := by
  unfold seqScanFwd
  rw [h]
  simp

theorem seqScanFwd_miss (sids : List (Option Nat)) (ctx i : Nat) (s : Option Nat)
    (h : sids.get? i = some s) (hs : s ≠ some ctx) :
    seqScanFwd sids ctx i = seqScanFwd sids ctx (i + 1) := by
  conv_lhs => unfold seqScanFwd
  rw [h]
  simp [hs]

theorem seqScanBwd_none (sids : List (Option Nat)) (ctx : Nat) (j : Int)
    (h : pyGet sids j = none) : seqScanBwd sids ctx j = .error indexErrorMsg := by
  unfold seqScanBwd
  rw [h]

theorem seqScanBwd_hit (sids : List (Option Nat)) (ctx : Nat) (j : Int)
    (h : pyGet sids j = some (some ctx)) : seqScanBwd sids ctx j = .ok j := by
  unfold seqScanBwd
  rw [h]
  simp

theorem seqScanBwd_miss (sids : List (Option Nat)) (ctx : Nat) (j : Int) (s : Option Nat)
    (h : pyGet sids j = some s) (hs : s ≠ some ctx) :
    seqScanBwd sids ctx j = seqScanBwd sids ctx (j - 1) := by
  conv_lhs => unfold seqScanBwd
  rw [h]
  simp [hs]

theorem startLoop_out (offsets : List (Nat × Nat)) (sc i : Nat)
    (h : offsets.length ≤ i) : startLoop offsets sc i = i := by
  unfold startLoop
  rw [dif_neg (by omega)]

theorem startLoop_go (offsets : List (Nat × Nat)) (sc i : Nat) (o : Nat × Nat)
    (h : offsets.get? i = some o) (hle : o.1 ≤ sc) :
    startLoop offsets sc i = startLoop offsets sc (i + 1) := by
  obtain ⟨hlt, hget⟩ := List.get?_eq_some.mp h
  conv_lhs => unfold startLoop
  rw [dif_pos hlt, hget, if_pos hle]

theorem startLoop_halt (offsets : List (Nat × Nat)) (sc i : Nat) (o : Nat × Nat)
    (h : offsets.get? i = some o) (hgt : sc < o.1) :
    startLoop offsets sc i = i := by
  obtain ⟨hlt, hget⟩ := List.get?_eq_some.mp h
  unfold startLoop
  rw [dif_pos hlt, hget, if_neg (by omega)]

theorem endLoop_none (offsets : List (Nat × Nat)) (ec : Nat) (j : Int)
    (h : pyGet offsets j = none) : endLoop offsets ec j = .error indexErrorMsg := by
  unfold endLoop
  rw [h]

theorem endLoop_go (offsets : List (Nat × Nat)) (ec : Nat) (j : Int) (o : Nat × Nat)
    (h : pyGet offsets j = some o) (hc : ec ≤ o.2) :
    endLoop offsets ec j = endLoop offsets ec (j - 1) := by
  conv_lhs => unfold endLoop
  rw [h]
  simp [hc]

theorem endLoop_halt (offsets : List (Nat × Nat)) (ec : Nat) (j : Int) (o : Nat × Nat)
    (h : pyGet offsets j = some o) (hc : o.2 < ec) :
    endLoop offsets ec j = .ok j := by
  unfold endLoop
  rw [h]
  simp
  omega

/-! ### Behaviour of the scans and narrowing loops -/

theorem seqScanFwd_spec (sids : List (Option Nat)) (ctx : Nat) :
    ∀ i r, seqScanFwd sids ctx i = .ok r →
      i ≤ r ∧ sids.get? r = some (some ctx) ∧
      ∀ m, i ≤ m → m < r → ∃ s, sids.get? m = some s ∧ s ≠ some ctx := by
  intro i
  induction i using seqScanFwd.induct sids ctx with
  | case1 i h =>
    intro r hr
    rw [seqScanFwd_none _ _ _ h] at hr
    exact absurd hr (by simp)
  | case2 i h =>
    intro r hr
    rw [seqScanFwd_hit _ _ _ h] at hr
    obtain rfl : i = r := by simpa using hr
    exact ⟨le_refl _, h, fun m h1 h2 => absurd (lt_of_le_of_lt h1 h2) (lt_irrefl _)⟩
  | case3 i s h hs ih =>
    intro r hr
    rw [seqScanFwd_miss _ _ _ _ h hs] at hr
    obtain ⟨h1, h2, h3⟩ := ih r hr
    refine ⟨by omega, h2, fun m hm1 hm2 => ?_⟩
    rcases Nat.eq_or_lt_of_le hm1 with rfl | hm3
    · exact ⟨s, h, hs⟩
    · exact h3 m (by omega) hm2

theorem seqScanFwd_finds (sids : List (Option Nat)) (ctx : Nat) :
    ∀ i k, i ≤ k → sids.get? k = some (some ctx) →
      ∃ r, seqScanFwd sids ctx i = .ok r ∧ r ≤ k := by
  intro i
  induction i using seqScanFwd.induct sids ctx with
  | case1 i h =>
    intro k hik hk
    exfalso
    have h1 : sids.length ≤ i := List.get?_eq_none.mp h
    have h2 : k < sids.length := (List.get?_eq_some.mp hk).1
    omega
  | case2 i h =>
    intro k hik hk
    exact ⟨i, seqScanFwd_hit _ _ _ h, hik⟩
  | case3 i s h hs ih =>
    intro k hik hk
    have hik2 : i + 1 ≤ k := by
      rcases Nat.eq_or_lt_of_le hik with rfl | h2
      · injection (h.symm.trans hk) with h3
        exact absurd h3 hs
      · omega
    obtain ⟨r, hr, hrk⟩ := ih k hik2 hk
    exact ⟨r, by rw [seqScanFwd_miss _ _ _ _ h hs]; exact hr, hrk⟩

theorem seqScanBwd_spec (sids : List (Option Nat)) (ctx : Nat) :
    ∀ (j r : Int), seqScanBwd sids ctx j = .ok r →
      r ≤ j ∧ pyGet sids r = some (some ctx) ∧
      ∀ m : Int, r < m → m ≤ j → ∃ s, pyGet sids m = some s ∧ s ≠ some ctx := by
  intro j
  induction j using seqScanBwd.induct sids ctx with
  | case1 j h =>
    intro r hr
    rw [seqScanBwd_none _ _ _ h] at hr
    exact absurd hr (by simp)
  | case2 j h =>
    intro r hr
    rw [seqScanBwd_hit _ _ _ h] at hr
    obtain rfl : j = r := by simpa using hr
    exact ⟨le_refl _, h, fun m h1 h2 => absurd (lt_of_lt_of_le h1 h2) (lt_irrefl _)⟩
  | case3 j s h hs ih =>
    intro r hr
    rw [seqScanBwd_miss _ _ _ _ h hs] at hr
    obtain ⟨h1, h2, h3⟩ := ih r hr
    refine ⟨by omega, h2, fun m hm1 hm2 => ?_⟩
    rcases eq_or_lt_of_le hm2 with rfl | hm3
    · exact ⟨s, h, hs⟩
    · exact h3 m hm1 (by omega)

theorem seqScanBwd_finds (sids : List (Option Nat)) (ctx : Nat) :
    ∀ (j : Int) (k : Nat), (k : Int) ≤ j → j < (sids.length : Int) →
      sids.get? k = some (some ctx) →
      ∃ r, seqScanBwd sids ctx j = .ok r ∧ (k : Int) ≤ r := by
  intro j
  induction j using seqScanBwd.induct sids ctx with
  | case1 j h =>
    intro k h1 h2 hk
    exfalso
    have h0 : (0 : Int) ≤ j := le_trans (Int.ofNat_nonneg k) h1
    rw [pyGet_nonneg _ _ h0] at h
    have h3 := List.get?_eq_none.mp h
    omega
  | case2 j h =>
    intro k h1 h2 hk
    exact ⟨j, seqScanBwd_hit _ _ _ h, h1⟩
  | case3 j s h hs ih =>
    intro k h1 h2 hk
    have hne : (k : Int) ≠ j := by
      intro he
      have hkk : ((k : Int)).toNat = k := by omega
      rw [← he, pyGet_nonneg _ _ (Int.ofNat_nonneg k), hkk, hk] at h
      injection h with h3
      exact hs h3.symm
    obtain ⟨r, hr, hkr⟩ := ih k (by omega) (by omega) hk
    exact ⟨r, by rw [seqScanBwd_miss _ _ _ _ h hs]; exact hr, hkr⟩

theorem startLoop_le (offsets : List (Nat × Nat)) (sc : Nat) :
    ∀ i, i ≤ startLoop offsets sc i := by
  intro i
  induction i using startLoop.induct offsets sc with
  | case1 i h1 h2 ih =>
    rw [startLoop_go offsets sc i _ (List.get?_eq_get h1) h2]
    omega
  | case2 i h1 h2 =>
    rw [startLoop_halt offsets sc i _ (List.get?_eq_get h1) (by omega)]
  | case3 i h1 =>
    rw [startLoop_out offsets sc i (by omega)]

theorem startLoop_bound (offsets : List (Nat × Nat)) (sc : Nat) :
    ∀ i, i ≤ offsets.length → startLoop offsets sc i ≤ offsets.length := by
  intro i
  induction i using startLoop.induct offsets sc with
  | case1 i h1 h2 ih =>
    intro hi
    rw [startLoop_go offsets sc i _ (List.get?_eq_get h1) h2]
    exact ih (by omega)
  | case2 i h1 h2 =>
    intro hi
    rw [startLoop_halt offsets sc i _ (List.get?_eq_get h1) (by omega)]
    exact hi
  | case3 i h1 =>
    intro hi
    rw [startLoop_out offsets sc i (by omega)]
    exact hi

theorem startLoop_stop (offsets : List (Nat × Nat)) (sc : Nat) :
    ∀ i, startLoop offsets sc i < offsets.length →
      ∃ o, offsets.get? (startLoop offsets sc i) = some o ∧ sc < o.1 := by
  intro i
  induction i using startLoop.induct offsets sc with
  | case1 i h1 h2 ih =>
    rw [startLoop_go offsets sc i _ (List.get?_eq_get h1) h2]
    exact ih
  | case2 i h1 h2 =>
    rw [startLoop_halt offsets sc i _ (List.get?_eq_get h1) (by omega)]
    intro _
    exact ⟨offsets.get ⟨i, h1⟩, List.get?_eq_get h1, by omega⟩
  | case3 i h1 =>
    rw [startLoop_out offsets sc i (by omega)]
    intro h2
    exact absurd h2 h1

theorem startLoop_pass (offsets : List (Nat × Nat)) (sc : Nat) :
    ∀ i m, i ≤ m → m < startLoop offsets sc i →
      ∃ o, offsets.get? m = some o ∧ o.1 ≤ sc := by
  intro i
  induction i using startLoop.induct offsets sc with
  | case1 i h1 h2 ih =>
    intro m hm1 hm2
    rw [startLoop_go offsets sc i _ (List.get?_eq_get h1) h2] at hm2
    rcases Nat.eq_or_lt_of_le hm1 with rfl | hm3
    · exact ⟨offsets.get ⟨i, h1⟩, List.get?_eq_get h1, h2⟩
    · exact ih m (by omega) hm2
  | case2 i h1 h2 =>
    intro m hm1 hm2
    rw [startLoop_halt offsets sc i _ (List.get?_eq_get h1) (by omega)] at hm2
    omega
  | case3 i h1 =>
    intro m hm1 hm2
    rw [startLoop_out offsets sc i (by omega)] at hm2
    omega

theorem endLoop_spec (offsets : List (Nat × Nat)) (ec : Nat) :
    ∀ (j k : Int), endLoop offsets ec j = .ok k →
      k ≤ j ∧ (∃ o, pyGet offsets k = some o ∧ o.2 < ec) ∧
      ∀ m : Int, k < m → m ≤ j → ∃ o, pyGet offsets m = some o ∧ ec ≤ o.2 := by
  intro j
  induction j using endLoop.induct offsets ec with
  | case1 j h =>
    intro k hk
    rw [endLoop_none _ _ _ h] at hk
    exact absurd hk (by simp)
  | case2 j o h hc ih =>
    intro k hk
    rw [endLoop_go _ _ _ _ h hc] at hk
    obtain ⟨h1, h2, h3⟩ := ih k hk
    refine ⟨by omega, h2, fun m hm1 hm2 => ?_⟩
    rcases eq_or_lt_of_le hm2 with rfl | hm3
    · exact ⟨o, h, hc⟩
    · exact h3 m hm1 (by omega)
  | case3 j o h hc =>
    intro k hk
    rw [endLoop_halt _ _ _ _ h (by omega)] at hk
    obtain rfl : j = k := by simpa using hk
    exact ⟨le_refl _, ⟨o, h, by omega⟩,
      fun m h1 h2 => absurd (lt_of_lt_of_le h1 h2) (lt_irrefl _)⟩

/-! ### Branch reduction lemmas for labelWindow -/

theorem labelWindow_noAnswer (clsId : Nat) (padOnRight : Bool) (a : Answers) (w : Window)
    (cls : Nat) (hcls : w.input_ids.findIdx? (fun t => t == clsId) = some cls)
    (h0 : a.answer_start.length = 0) :
    labelWindow clsId padOnRight a w = .ok (cls, cls) := by
  unfold labelWindow
  rw [hcls]
  simp only [h0, ite_true, if_pos]

theorem labelWindow_realStep (clsId : Nat) (padOnRight : Bool) (a : Answers) (w : Window)
    (cls sc : Nat) (t0 : String) (tsi : Nat) (tei : Int) (os oe : Nat × Nat)
    (hcls : w.input_ids.findIdx? (fun t => t == clsId) = some cls)
    (hsc : a.answer_start.get? 0 = some sc)
    (ht0 : a.text.get? 0 = some t0)
    (hfwd : seqScanFwd w.sequence_ids (contextId padOnRight) 0 = .ok tsi)
    (hbwd : seqScanBwd w.sequence_ids (contextId padOnRight)
      ((w.input_ids.length : Int) - 1) = .ok tei)
    (hos : w.offsets.get? tsi = some os) (h1 : os.1 ≤ sc)
    (hoe : pyGet w.offsets tei = some oe) (h2 : sc + t0.length ≤ oe.2) :
    labelWindow clsId padOnRight a w =
      match endLoop w.offsets (sc + t0.length) tei with
      | .error e => .error e
      | .ok k => .ok (((startLoop w.offsets sc tsi : Nat) : Int) - 1, k + 1) := by
  have hne : ¬ (a.answer_start.length = 0) := by
    intro h0
    rw [List.get?_eq_none.mpr (by omega)] at hsc
    exact absurd hsc (by simp)
  unfold labelWindow
  rw [hcls]
  simp only [hne, ite_false, if_neg, hsc, ht0, hfwd, hbwd, hos, hoe, h1, h2, ite_true, if_pos]

theorem labelWindow_real (clsId : Nat) (padOnRight : Bool) (a : Answers) (w : Window)
    (cls sc : Nat) (t0 : String) (tsi : Nat) (tei : Int) (os oe : Nat × Nat) (k : Int)
    (hcls : w.input_ids.findIdx? (fun t => t == clsId) = some cls)
    (hsc : a.answer_start.get? 0 = some sc)
    (ht0 : a.text.get? 0 = some t0)
    (hfwd : seqScanFwd w.sequence_ids (contextId padOnRight) 0 = .ok tsi)
    (hbwd : seqScanBwd w.sequence_ids (contextId padOnRight)
      ((w.input_ids.length : Int) - 1) = .ok tei)
    (hos : w.offsets.get? tsi = some os) (h1 : os.1 ≤ sc)
    (hoe : pyGet w.offsets tei = some oe) (h2 : sc + t0.length ≤ oe.2)
    (hend : endLoop w.offsets (sc + t0.length) tei = .ok k) :
    labelWindow clsId padOnRight a w =
      .ok (((startLoop w.offsets sc tsi : Nat) : Int) - 1, k + 1) := by
  rw [labelWindow_realStep clsId padOnRight a w cls sc t0 tsi tei os oe
    hcls hsc ht0 hfwd hbwd hos h1 hoe h2, hend]

theorem labelWindow_clampLeft (clsId : Nat) (padOnRight : Bool) (a : Answers) (w : Window)
    (cls sc : Nat) (t0 : String) (tsi : Nat) (tei : Int) (os : Nat × Nat)
    (hcls : w.input_ids.findIdx? (fun t => t == clsId) = some cls)
    (hsc : a.answer_start.get? 0 = some sc)
    (ht0 : a.text.get? 0 = some t0)
    (hfwd : seqScanFwd w.sequence_ids (contextId padOnRight) 0 = .ok tsi)
    (hbwd : seqScanBwd w.sequence_ids (contextId padOnRight)
      ((w.input_ids.length : Int) - 1) = .ok tei)
    (hos : w.offsets.get? tsi = some os) (h1 : ¬ os.1 ≤ sc) :
    labelWindow clsId padOnRight a w = .ok (cls, cls) := by
  have hne : ¬ (a.answer_start.length = 0) := by
    intro h0
    rw [List.get?_eq_none.mpr (by omega)] at hsc
    exact absurd hsc (by simp)
  unfold labelWindow
  rw [hcls]
  simp only [hne, ite_false, if_neg, hsc, ht0, hfwd, hbwd, hos, h1, ite_true, if_pos]

theorem labelWindow_clampRight (clsId : Nat) (padOnRight : Bool) (a : Answers) (w : Window)
    (cls sc : Nat) (t0 : String) (tsi : Nat) (tei : Int) (os oe : Nat × Nat)
    (hcls : w.input_ids.findIdx? (fun t => t == clsId) = some cls)
    (hsc : a.answer_start.get? 0 = some sc)
    (ht0 : a.text.get? 0 = some t0)
    (hfwd : seqScanFwd w.sequence_ids (contextId padOnRight) 0 = .ok tsi)
    (hbwd : seqScanBwd w.sequence_ids (contextId padOnRight)
      ((w.input_ids.length : Int) - 1) = .ok tei)
    (hos : w.offsets.get? tsi = some os) (h1 : os.1 ≤ sc)
    (hoe : pyGet w.offsets tei = some oe) (h2 : ¬ sc + t0.length ≤ oe.2) :
    labelWindow clsId padOnRight a w = .ok (cls, cls) := by
  have hne : ¬ (a.answer_start.length = 0) := by
    intro h0
    rw [List.get?_eq_none.mpr (by omega)] at hsc
    exact absurd hsc (by simp)
  unfold labelWindow
  rw [hcls]
  simp only [hne, ite_false, if_neg, hsc, ht0, hfwd, hbwd, hos, hoe, h1, h2, ite_true, if_pos]

/-! ### Concrete sample data (a cls/question/sep/context/sep window) -/

def sampleWindow : Window where
  input_ids := [101, 7, 102, 11, 12, 13, 102]
  offsets := [(0, 0), (0, 3), (0, 0), (0, 5), (6, 8), (9, 14), (0, 0)]
  sequence_ids := [none, some 0, none, some 1, some 1, some 1, none]
  sample_index := 0

def sampleAnswers : Answers where
  answer_start := [6]
  text := ["ab"]

def emptyAnswers : Answers where
  answer_start := []
  text := []

def outOfWindowAnswers : Answers where
  answer_start := [100]
  text := ["xy"]

def degenerateAnswers : Answers where
  answer_start := [0]
  text := [""]

theorem sampleFwd : seqScanFwd sampleWindow.sequence_ids (contextId true) 0 = .ok 3 := by
  rw [seqScanFwd_miss sampleWindow.sequence_ids (contextId true) 0 none rfl (by decide)]
  rw [seqScanFwd_miss sampleWindow.sequence_ids (contextId true) (0 + 1) (some 0) rfl (by decide)]
  rw [seqScanFwd_miss sampleWindow.sequence_ids (contextId true) (0 + 1 + 1) none rfl (by decide)]
  rw [seqScanFwd_hit sampleWindow.sequence_ids (contextId true) (0 + 1 + 1 + 1) rfl]

theorem sampleBwd : seqScanBwd sampleWindow.sequence_ids (contextId true)
    ((sampleWindow.input_ids.length : Int) - 1) = .ok 5 := by
  show seqScanBwd sampleWindow.sequence_ids (contextId true) (7 - 1) = .ok 5
  rw [seqScanBwd_miss sampleWindow.sequence_ids (contextId true) (7 - 1) none (by decide)
    (by decide)]
  rw [seqScanBwd_hit sampleWindow.sequence_ids (contextId true) (7 - 1 - 1) (by decide)]
  norm_num

theorem sampleStart : startLoop sampleWindow.offsets 6 3 = 5 := by
  rw [startLoop_go sampleWindow.offsets 6 3 (0, 5) rfl (by norm_num)]
  rw [startLoop_go sampleWindow.offsets 6 (3 + 1) (6, 8) rfl (by norm_num)]
  rw [startLoop_halt sampleWindow.offsets 6 (3 + 1 + 1) (9, 14) rfl (by norm_num)]

theorem sampleEnd : endLoop sampleWindow.offsets 8 5 = .ok 3 := by
  rw [endLoop_go sampleWindow.offsets 8 5 (9, 14) (by decide) (by norm_num)]
  rw [endLoop_go sampleWindow.offsets 8 (5 - 1) (6, 8) (by decide) (by norm_num)]
  rw [endLoop_halt sampleWindow.offsets 8 (5 - 1 - 1) (0, 5) (by decide) (by norm_num)]
  norm_num

/-! ### Claims -/

/-- C3: for every window derived from an example whose answers list is empty
(len(answers["answer_start"]) == 0), prepare_train_features sets both
start_position and end_position to cls_index, without performing the
containment check or any offset arithmetic.  The window's offsets and
sequence_ids are arbitrary here (even malformed ones on which the scans
would fail), which shows no offset arithmetic is reached. -/
theorem claim_C3 (clsId : Nat) (padOnRight : Bool) (a : Answers) (w : Window) (cls : Nat)
    (hcls : w.input_ids.findIdx? (fun t => t == clsId) = some cls)
    (h0 : a.answer_start.length = 0) :
    labelWindow clsId padOnRight a w = .ok (cls, cls) :=
  labelWindow_noAnswer clsId padOnRight a w cls hcls h0

theorem claim_C3_witness : labelWindow 101 true emptyAnswers sampleWindow = .ok (0, 0) :=
  claim_C3 101 true emptyAnswers sampleWindow 0 rfl rfl

/-- C2: for every window whose example has an answer, if the answer's
character span [start_char, end_char) is not fully within
[offsets[token_start_index].start, offsets[token_end_index].end], then both
start_position and end_position are set to cls_index. -/
theorem claim_C2 (clsId : Nat) (padOnRight : Bool) (a : Answers) (w : Window)
    (cls sc : Nat) (t0 : String) (tsi : Nat) (tei : Int) (os oe : Nat × Nat)
    (hcls : w.input_ids.findIdx? (fun t => t == clsId) = some cls)
    (hsc : a.answer_start.get? 0 = some sc)
    (ht0 : a.text.get? 0 = some t0)
    (hfwd : seqScanFwd w.sequence_ids (contextId padOnRight) 0 = .ok tsi)
    (hbwd : seqScanBwd w.sequence_ids (contextId padOnRight)
      ((w.input_ids.length : Int) - 1) = .ok tei)
    (hos : w.offsets.get? tsi = some os)
    (hoe : pyGet w.offsets tei = some oe)
    (hnc : ¬ (os.1 ≤ sc ∧ sc + t0.length ≤ oe.2)) :
    labelWindow clsId padOnRight a w = .ok (cls, cls) := by
  by_cases h1 : os.1 ≤ sc
  · exact labelWindow_clampRight clsId padOnRight a w cls sc t0 tsi tei os oe
      hcls hsc ht0 hfwd hbwd hos h1 hoe (fun h2 => hnc ⟨h1, h2⟩)
  · exact labelWindow_clampLeft clsId padOnRight a w cls sc t0 tsi tei os
      hcls hsc ht0 hfwd hbwd hos h1

theorem claim_C2_witness :
    labelWindow 101 true outOfWindowAnswers sampleWindow = .ok (0, 0) :=
  claim_C2 101 true outOfWindowAnswers sampleWindow 0 100 "xy" 3 5 (0, 5) (9, 14)
    rfl rfl rfl sampleFwd sampleBwd rfl rfl (by decide)

/-- C8: for every window containing at least one context-tagged token, the
forward scan returns the index of the first context-tagged token, the
backward scan (started at len(input_ids) - 1) returns the index of the last
context-tagged token, and both stay within the bounds of the sequence. -/
theorem claim_C8 (padOnRight : Bool) (w : Window)
    (wf : w.input_ids.length = w.sequence_ids.length)
    (k : Nat) (hk : w.sequence_ids.get? k = some (some (contextId padOnRight))) :
    ∃ (i : Nat) (j : Int),
      seqScanFwd w.sequence_ids (contextId padOnRight) 0 = .ok i ∧
      i < w.sequence_ids.length ∧
      w.sequence_ids.get? i = some (some (contextId padOnRight)) ∧
      (∀ m, m < i → w.sequence_ids.get? m ≠ some (some (contextId padOnRight))) ∧
      seqScanBwd w.sequence_ids (contextId padOnRight)
        ((w.input_ids.length : Int) - 1) = .ok j ∧
      0 ≤ j ∧ j < (w.sequence_ids.length : Int) ∧
      w.sequence_ids.get? j.toNat = some (some (contextId padOnRight)) ∧
      (∀ m : Nat, j < (m : Int) → m < w.sequence_ids.length →
        w.sequence_ids.get? m ≠ some (some (contextId padOnRight))) := by
  have hklen : k < w.sequence_ids.length := (List.get?_eq_some.mp hk).1
  obtain ⟨i, hi, hik⟩ := seqScanFwd_finds w.sequence_ids _ 0 k (Nat.zero_le k) hk
  obtain ⟨_, hi2, hi3⟩ := seqScanFwd_spec w.sequence_ids _ 0 i hi
  obtain ⟨j, hj, hkj⟩ := seqScanBwd_finds w.sequence_ids _
    ((w.input_ids.length : Int) - 1) k (by omega) (by omega) hk
  obtain ⟨hjle, hj2, hj3⟩ := seqScanBwd_spec w.sequence_ids _ _ j hj
  have hj0 : (0 : Int) ≤ j := le_trans (Int.ofNat_nonneg k) hkj
  have hjlen : j < (w.sequence_ids.length : Int) := by omega
  refine ⟨i, j, hi, (List.get?_eq_some.mp hi2).1, hi2, ?_, hj, hj0, hjlen, ?_, ?_⟩
  · intro m hm hcon
    obtain ⟨s, hs1, hs2⟩ := hi3 m (Nat.zero_le m) hm
    rw [hs1] at hcon
    injection hcon with hcon2
    exact hs2 hcon2
  · rw [pyGet_nonneg _ _ hj0] at hj2
    exact hj2
  · intro m hm1 hm2 hcon
    obtain ⟨s, hs1, hs2⟩ := hj3 m hm1 (by omega)
    have hmm : ((m : Int)).toNat = m := by omega
    rw [pyGet_nonneg _ _ (Int.ofNat_nonneg m), hmm] at hs1
    rw [hs1] at hcon
    injection hcon with hcon2
    exact hs2 hcon2

theorem claim_C8_witness :
    ∃ (i : Nat) (j : Int),
      seqScanFwd sampleWindow.sequence_ids (contextId true) 0 = .ok i ∧
      i < sampleWindow.sequence_ids.length ∧
      sampleWindow.sequence_ids.get? i = some (some (contextId true)) ∧
      (∀ m, m < i → sampleWindow.sequence_ids.get? m ≠ some (some (contextId true))) ∧
      seqScanBwd sampleWindow.sequence_ids (contextId true)
        ((sampleWindow.input_ids.length : Int) - 1) = .ok j ∧
      0 ≤ j ∧ j < (sampleWindow.sequence_ids.length : Int) ∧
      sampleWindow.sequence_ids.get? j.toNat = some (some (contextId true)) ∧
      (∀ m : Nat, j < (m : Int) → m < sampleWindow.sequence_ids.length →
        sampleWindow.sequence_ids.get? m ≠ some (some (contextId true))) :=
  claim_C8 true sampleWindow rfl 3 rfl

/-- C10: if prepare_train_features returns, it has appended exactly one
start_positions entry and one end_positions entry per window, so both
output lists have length equal to the number of windows. -/
theorem claim_C10 (clsId : Nat) (padOnRight : Bool) (answersList : List Answers) :
    ∀ (ws : List Window) (sps eps : List Int),
      prepareTrainFeatures clsId padOnRight answersList ws = .ok (sps, eps) →
      sps.length = ws.length ∧ eps.length = ws.length := by
  intro ws
  induction ws with
  | nil =>
    intro sps eps h
    simp only [prepareTrainFeatures, Except.ok.injEq, Prod.mk.injEq] at h
    obtain ⟨h1, h2⟩ := h
    rw [← h1, ← h2]
    exact ⟨rfl, rfl⟩
  | cons w ws ih =>
    intro sps eps h
    simp only [prepareTrainFeatures] at h
    split at h
    · exact absurd h (by simp)
    · split at h
      · exact absurd h (by simp)
      · split at h
        · exact absurd h (by simp)
        · rename_i sps0 eps0 hr
          simp at h
          obtain ⟨h1, h2⟩ := h
          subst h1
          subst h2
          obtain ⟨l1, l2⟩ := ih sps0 eps0 hr
          constructor <;> simp [l1, l2]

theorem claim_C10_witness :
    (([0] : List Int).length = [sampleWindow].length ∧
      ([0] : List Int).length = [sampleWindow].length) :=
  claim_C10 101 true [emptyAnswers] [sampleWindow] [0] [0] rfl

/-- C7: prepare_train_features and prepare_validation_features are pure and
deterministic: on identical input batches they yield identical outputs. -/
theorem claim_C7 (clsId : Nat) (padOnRight : Bool) (answersList : List Answers)
    (ids : List String) (ws1 ws2 : List Window) (h : ws1 = ws2) :
    prepareTrainFeatures clsId padOnRight answersList ws1 =
      prepareTrainFeatures clsId padOnRight answersList ws2 ∧
    prepareValidationFeatures padOnRight ids ws1 =
      prepareValidationFeatures padOnRight ids ws2 := by
  subst h
  exact ⟨rfl, rfl⟩

theorem claim_C7_witness :
    prepareTrainFeatures 101 true [emptyAnswers] [sampleWindow] =
      prepareTrainFeatures 101 true [emptyAnswers] [sampleWindow] ∧
    prepareValidationFeatures true ["id0"] [sampleWindow] =
      prepareValidationFeatures true ["id0"] [sampleWindow] :=
  claim_C7 101 true [emptyAnswers] ["id0"] [sampleWindow] [sampleWindow] rfl

/-! ### Validation feature claims -/

theorem rewriteOffsets_spec (sids : List (Option Nat)) (ctx : Nat) :
    ∀ (offs : List (Nat × Nat)) (k : Nat) (res : List (Option (Nat × Nat))),
      rewriteOffsets sids ctx offs k = .ok res →
      res.length = offs.length ∧
      ∀ m o, offs.get? m = some o →
        ∃ s, sids.get? (k + m) = some s ∧
          res.get? m = some (if s = some ctx then some o else none) := by
  intro offs
  induction offs with
  | nil =>
    intro k res h
    simp only [rewriteOffsets, Except.ok.injEq] at h
    subst h
    exact ⟨rfl, fun m o hm => absurd hm (by simp)⟩
  | cons o rest ih =>
    intro k res h
    simp only [rewriteOffsets] at h
    split at h
    · exact absurd h (by simp)
    · rename_i s hs
      split at h
      · exact absurd h (by simp)
      · rename_i tl htl
        simp only [Except.ok.injEq] at h
        subst h
        obtain ⟨hl, hrest⟩ := ih (k + 1) tl htl
        refine ⟨by simp [hl], ?_⟩
        intro m o2 hm
        cases m with
        | zero =>
          simp only [List.get?] at hm
          injection hm with hm2
          subst hm2
          exact ⟨s, by simpa using hs, by simp⟩
        | succ m2 =>
          obtain ⟨s2, hs2, hres2⟩ := hrest m2 o2 (by simpa using hm)
          refine ⟨s2, ?_, by simpa using hres2⟩
          have hkm : k + (m2 + 1) = k + 1 + m2 := by omega
          rw [hkm]
          exact hs2

/-- C5: for every window processed by prepare_validation_features, the
rewritten offset_mapping keeps the original pair exactly at positions whose
sequence tag equals the context tag (1 when padding on the right, 0
otherwise), replaces every other position with the not-applicable marker
(none), and changes nothing else (the length is preserved). -/
theorem claim_C5 (padOnRight : Bool) (ids : List String) (w : Window) (eid : String)
    (offs : List (Option (Nat × Nat)))
    (h : validationWindow padOnRight ids w = .ok (eid, offs)) :
    offs.length = w.offsets.length ∧
    ∀ m o, w.offsets.get? m = some o →
      ∃ s, w.sequence_ids.get? m = some s ∧
        offs.get? m = some (if s = some (contextId padOnRight) then some o else none) := by
  unfold validationWindow at h
  split at h
  · exact absurd h (by simp)
  · split at h
    · exact absurd h (by simp)
    · rename_i res hres
      simp only [Except.ok.injEq, Prod.mk.injEq] at h
      obtain ⟨h1, h2⟩ := h
      subst h2
      obtain ⟨hl, hrest⟩ := rewriteOffsets_spec w.sequence_ids (contextId padOnRight)
        w.offsets 0 res hres
      exact ⟨hl, fun m o hm => by simpa using hrest m o hm⟩

theorem claim_C5_witness :
    (([none, none, none, some (0, 5), some (6, 8), some (9, 14), none] :
        List (Option (Nat × Nat))).length = sampleWindow.offsets.length ∧
      ∃ s, sampleWindow.sequence_ids.get? 4 = some s ∧
        ([none, none, none, some (0, 5), some (6, 8), some (9, 14), none] :
          List (Option (Nat × Nat))).get? 4 =
          some (if s = some (contextId true) then some (6, 8) else none)) :=
  ⟨(claim_C5 true ["id0"] sampleWindow "id0"
      [none, none, none, some (0, 5), some (6, 8), some (9, 14), none] rfl).1,
    (claim_C5 true ["id0"] sampleWindow "id0"
      [none, none, none, some (0, 5), some (6, 8), some (9, 14), none] rfl).2
      4 (6, 8) rfl⟩

/-- C6: for every window processed by prepare_validation_features, the
appended example_id equals the id of the source example reached through the
window's overflow-to-sample mapping entry. -/
theorem claim_C6 (padOnRight : Bool) (ids : List String) :
    ∀ (ws : List Window) (eids : List String)
      (offss : List (List (Option (Nat × Nat)))),
      prepareValidationFeatures padOnRight ids ws = .ok (eids, offss) →
      ∀ i (hi : i < ws.length),
        eids.get? i = ids.get? (ws.get ⟨i, hi⟩).sample_index := by
  intro ws
  induction ws with
  | nil =>
    intro eids offss h i hi
    exact absurd hi (by simp)
  | cons w ws ih =>
    intro eids offss h i hi
    simp only [prepareValidationFeatures] at h
    split at h
    · exact absurd h (by simp)
    · rename_i eid offs hw
      split at h
      · exact absurd h (by simp)
      · rename_i eids0 offss0 hr
        simp at h
        obtain ⟨h1, h2⟩ := h
        subst h1
        subst h2
        have hid : ids.get? w.sample_index = some eid := by
          unfold validationWindow at hw
          split at hw
          · exact absurd hw (by simp)
          · rename_i eid2 hid2
            split at hw
            · exact absurd hw (by simp)
            · simp only [Except.ok.injEq, Prod.mk.injEq] at hw
              rw [← hw.1]
              exact hid2
        cases i with
        | zero => simpa using hid.symm
        | succ i2 =>
          have := ih eids0 offss0 hr i2 (by simpa using hi)
          simpa using this

theorem claim_C6_witness :
    (["id0"] : List String).get? 0 =
      (["id0"] : List String).get?
        (([sampleWindow].get ⟨0, by decide⟩).sample_index) :=
  claim_C6 true ["id0"] [sampleWindow] ["id0"]
    [[none, none, none, some (0, 5), some (6, 8), some (9, 14), none]] rfl
    0 (by decide)

/-! ### Real-label branch claims -/

/-- C1: for every window whose example has an answer and whose answer span
passes the containment check, the appended start_position and end_position
form the tightest token span covering [start_char, end_char):
offsets[start_position].start <= start_char, offsets[end_position].end >=
end_char, and shrinking either bound by one token would no longer cover the
answer (the token after start_position starts past start_char — or there is
no such token — and the token before end_position ends before end_char). -/
theorem claim_C1 (clsId : Nat) (padOnRight : Bool) (a : Answers) (w : Window)
    (cls sc : Nat) (t0 : String) (tsi : Nat) (tei sp ep : Int) (os oe : Nat × Nat)
    (hcls : w.input_ids.findIdx? (fun t => t == clsId) = some cls)
    (hsc : a.answer_start.get? 0 = some sc)
    (ht0 : a.text.get? 0 = some t0)
    (hfwd : seqScanFwd w.sequence_ids (contextId padOnRight) 0 = .ok tsi)
    (hbwd : seqScanBwd w.sequence_ids (contextId padOnRight)
      ((w.input_ids.length : Int) - 1) = .ok tei)
    (hos : w.offsets.get? tsi = some os) (h1 : os.1 ≤ sc)
    (hoe : pyGet w.offsets tei = some oe) (h2 : sc + t0.length ≤ oe.2)
    (hrun : labelWindow clsId padOnRight a w = .ok (sp, ep)) :
    (∃ o, pyGet w.offsets sp = some o ∧ o.1 ≤ sc) ∧
    (∃ o, pyGet w.offsets ep = some o ∧ sc + t0.length ≤ o.2) ∧
    (sp + 1 = (w.offsets.length : Int) ∨
      ∃ o, pyGet w.offsets (sp + 1) = some o ∧ sc < o.1) ∧
    (∃ o, pyGet w.offsets (ep - 1) = some o ∧ o.2 < sc + t0.length) := by
  rw [labelWindow_realStep clsId padOnRight a w cls sc t0 tsi tei os oe
    hcls hsc ht0 hfwd hbwd hos h1 hoe h2] at hrun
  rcases hend : endLoop w.offsets (sc + t0.length) tei with e | k
  · rw [hend] at hrun
    exact absurd hrun (by simp)
  · rw [hend] at hrun
    simp only [Except.ok.injEq, Prod.mk.injEq] at hrun
    obtain ⟨hsp, hep⟩ := hrun
    have htsilt : tsi < w.offsets.length := (List.get?_eq_some.mp hos).1
    have hgo : startLoop w.offsets sc tsi = startLoop w.offsets sc (tsi + 1) :=
      startLoop_go w.offsets sc tsi os hos h1
    have hjge : tsi + 1 ≤ startLoop w.offsets sc tsi := by
      rw [hgo]
      exact startLoop_le w.offsets sc (tsi + 1)
    have hjle : startLoop w.offsets sc tsi ≤ w.offsets.length :=
      startLoop_bound w.offsets sc tsi (by omega)
    obtain ⟨hkle, ⟨ob, hob1, hob2⟩, hpassE⟩ :=
      endLoop_spec w.offsets (sc + t0.length) tei k hend
    have hgoE : endLoop w.offsets (sc + t0.length) tei
        = endLoop w.offsets (sc + t0.length) (tei - 1) :=
      endLoop_go w.offsets (sc + t0.length) tei oe hoe h2
    have hkle2 : k ≤ tei - 1 :=
      (endLoop_spec w.offsets (sc + t0.length) (tei - 1) k
        (by rw [← hgoE]; exact hend)).1
    refine ⟨?_, ?_, ?_, ?_⟩
    · obtain ⟨oa, hoa1, hoa2⟩ := startLoop_pass w.offsets sc tsi
        (startLoop w.offsets sc tsi - 1) (by omega) (by omega)
      refine ⟨oa, ?_, hoa2⟩
      rw [← hsp, pyGet_nonneg _ _ (by omega)]
      have hz : (((startLoop w.offsets sc tsi : Nat) : Int) - 1).toNat
          = startLoop w.offsets sc tsi - 1 := by omega
      rw [hz]
      exact hoa1
    · obtain ⟨oc, hoc1, hoc2⟩ := hpassE (k + 1) (by omega) (by omega)
      rw [← hep]
      exact ⟨oc, hoc1, hoc2⟩
    · rcases eq_or_lt_of_le hjle with hj | hj
      · left
        rw [← hsp]
        omega
      · right
        obtain ⟨od, hod1, hod2⟩ := startLoop_stop w.offsets sc tsi hj
        refine ⟨od, ?_, hod2⟩
        rw [← hsp]
        have h9 : (((startLoop w.offsets sc tsi : Nat) : Int) - 1) + 1
            = ((startLoop w.offsets sc tsi : Nat) : Int) := by ring
        rw [h9, pyGet_nonneg _ _ (by omega)]
        have hz2 : (((startLoop w.offsets sc tsi : Nat) : Int)).toNat
            = startLoop w.offsets sc tsi := by omega
        rw [hz2]
        exact hod1
    · rw [← hep]
      have h8 : k + 1 - 1 = k := by ring
      rw [h8]
      exact ⟨ob, hob1, hob2⟩

theorem sampleRun : labelWindow 101 true sampleAnswers sampleWindow = .ok (4, 4) := by
  rw [labelWindow_real 101 true sampleAnswers sampleWindow 0 6 "ab" 3 5 (0, 5) (9, 14) 3
    rfl rfl rfl sampleFwd sampleBwd rfl (by norm_num) (by decide) (by decide) sampleEnd]
  rw [sampleStart]
  norm_num

theorem claim_C1_witness :
    (∃ o, pyGet sampleWindow.offsets 4 = some o ∧ o.1 ≤ 6) ∧
    (∃ o, pyGet sampleWindow.offsets 4 = some o ∧ 6 + "ab".length ≤ o.2) ∧
    ((4 : Int) + 1 = (sampleWindow.offsets.length : Int) ∨
      ∃ o, pyGet sampleWindow.offsets (4 + 1) = some o ∧ 6 < o.1) ∧
    (∃ o, pyGet sampleWindow.offsets (4 - 1) = some o ∧ o.2 < 6 + "ab".length) :=
  claim_C1 101 true sampleAnswers sampleWindow 0 6 "ab" 3 5 4 4 (0, 5) (9, 14)
    rfl rfl rfl sampleFwd sampleBwd rfl (by norm_num) (by decide) (by decide) sampleRun

/-- C9: for every window taking the real-label branch, the appended
start_position is at least the index of the first context-tagged token and
the appended end_position is at most the index of the last context-tagged
token (each narrowing loop runs at least one step). -/
theorem claim_C9 (clsId : Nat) (padOnRight : Bool) (a : Answers) (w : Window)
    (cls sc : Nat) (t0 : String) (tsi : Nat) (tei sp ep : Int) (os oe : Nat × Nat)
    (hcls : w.input_ids.findIdx? (fun t => t == clsId) = some cls)
    (hsc : a.answer_start.get? 0 = some sc)
    (ht0 : a.text.get? 0 = some t0)
    (hfwd : seqScanFwd w.sequence_ids (contextId padOnRight) 0 = .ok tsi)
    (hbwd : seqScanBwd w.sequence_ids (contextId padOnRight)
      ((w.input_ids.length : Int) - 1) = .ok tei)
    (hos : w.offsets.get? tsi = some os) (h1 : os.1 ≤ sc)
    (hoe : pyGet w.offsets tei = some oe) (h2 : sc + t0.length ≤ oe.2)
    (hrun : labelWindow clsId padOnRight a w = .ok (sp, ep)) :
    (tsi : Int) ≤ sp ∧ ep ≤ tei := by
  rw [labelWindow_realStep clsId padOnRight a w cls sc t0 tsi tei os oe
    hcls hsc ht0 hfwd hbwd hos h1 hoe h2] at hrun
  rcases hend : endLoop w.offsets (sc + t0.length) tei with e | k
  · rw [hend] at hrun
    exact absurd hrun (by simp)
  · rw [hend] at hrun
    simp only [Except.ok.injEq, Prod.mk.injEq] at hrun
    obtain ⟨hsp, hep⟩ := hrun
    have hgo : startLoop w.offsets sc tsi = startLoop w.offsets sc (tsi + 1) :=
      startLoop_go w.offsets sc tsi os hos h1
    have hjge : tsi + 1 ≤ startLoop w.offsets sc tsi := by
      rw [hgo]
      exact startLoop_le w.offsets sc (tsi + 1)
    have hgoE : endLoop w.offsets (sc + t0.length) tei
        = endLoop w.offsets (sc + t0.length) (tei - 1) :=
      endLoop_go w.offsets (sc + t0.length) tei oe hoe h2
    have hkle2 : k ≤ tei - 1 :=
      (endLoop_spec w.offsets (sc + t0.length) (tei - 1) k
        (by rw [← hgoE]; exact hend)).1
    omega

theorem claim_C9_witness : ((3 : Nat) : Int) ≤ 4 ∧ (4 : Int) ≤ 5 :=
  claim_C9 101 true sampleAnswers sampleWindow 0 6 "ab" 3 5 4 4 (0, 5) (9, 14)
    rfl rfl rfl sampleFwd sampleBwd rfl (by norm_num) (by decide) (by decide) sampleRun

/-! ### C4: behaviour on malformed answer data -/

theorem sampleEndDegenerate : endLoop sampleWindow.offsets 0 5 = .error indexErrorMsg := by
  rw [endLoop_go sampleWindow.offsets 0 5 (9, 14) (by decide) (Nat.zero_le _)]
  norm_num
  rw [endLoop_go sampleWindow.offsets 0 4 (6, 8) (by decide) (Nat.zero_le _)]
  norm_num
  rw [endLoop_go sampleWindow.offsets 0 3 (0, 5) (by decide) (Nat.zero_le _)]
  norm_num
  rw [endLoop_go sampleWindow.offsets 0 2 (0, 0) (by decide) (Nat.zero_le _)]
  norm_num
  rw [endLoop_go sampleWindow.offsets 0 1 (0, 3) (by decide) (Nat.zero_le _)]
  norm_num
  rw [endLoop_go sampleWindow.offsets 0 0 (0, 0) (by decide) (Nat.zero_le _)]
  norm_num
  rw [endLoop_go sampleWindow.offsets 0 (-1) (0, 0) (by decide) (Nat.zero_le _)]
  norm_num
  rw [endLoop_go sampleWindow.offsets 0 (-2) (9, 14) (by decide) (Nat.zero_le _)]
  norm_num
  rw [endLoop_go sampleWindow.offsets 0 (-3) (6, 8) (by decide) (Nat.zero_le _)]
  norm_num
  rw [endLoop_go sampleWindow.offsets 0 (-4) (0, 5) (by decide) (Nat.zero_le _)]
  norm_num
  rw [endLoop_go sampleWindow.offsets 0 (-5) (0, 0) (by decide) (Nat.zero_le _)]
  norm_num
  rw [endLoop_go sampleWindow.offsets 0 (-6) (0, 3) (by decide) (Nat.zero_le _)]
  norm_num
  rw [endLoop_go sampleWindow.offsets 0 (-7) (0, 0) (by decide) (Nat.zero_le _)]
  norm_num
  rw [endLoop_none sampleWindow.offsets 0 (-8) (by decide)]

/-- C4: the claim says malformed answer data makes prepare_train_features
raise a fatal error with no silent clamping and no reads outside the bounds
of offsets (the end-narrowing loop never walking past the first element).
The code does neither: an answer span beyond the context text is silently
labelled with cls_index (first conjunct, answer span [100, 102) on a
14-character context), and an answer with end_char = 0 sends the
end-narrowing loop below index 0, re-reading the list through Python
negative-index wrap-around (indices -1 .. -7) until the access at -8
raises IndexError (second conjunct). -/
theorem claim_C4_code_behavior :
    labelWindow 101 true outOfWindowAnswers sampleWindow = .ok (0, 0) ∧
    labelWindow 101 true degenerateAnswers sampleWindow = .error indexErrorMsg := by
  constructor
  · exact labelWindow_clampRight 101 true outOfWindowAnswers sampleWindow 0 100 "xy" 3 5
      (0, 5) (9, 14) rfl rfl rfl sampleFwd sampleBwd rfl (by norm_num) (by decide)
      (by decide)
  · rw [labelWindow_realStep 101 true degenerateAnswers sampleWindow 0 0 "" 3 5
      (0, 5) (9, 14) rfl rfl rfl sampleFwd sampleBwd rfl (by norm_num) (by decide)
      (by decide)]
    have h0 : (0 : Nat) + "".length = 0 := rfl
    rw [h0, sampleEndDegenerate]

end MrcReader
